import Mathlib

/-!
Shallow embedding of the real-time event server of the vape4you2 repository.

The server (the library module re-exported by `pages/api/socketio.ts`) keeps
one in-memory JavaScript `Map` called `connectedUsers` from user id to a
presence entry, and registers one handler per named socket event
(`join-user`, `send-message`, `typing`, `stop-typing`, `mark-read`,
`order-paid`, `order-status-updated`, `get-online-users`, `disconnect`).
Each handler is modelled as one case of a `step` function from server state
and event to the new state plus the list of emissions, in program order.

A JavaScript `Map` preserves insertion order, `set` updates an existing key
in place (keeping its position), and iteration follows insertion order, so
the map is embedded as an insertion-ordered association list.

Values produced by the runtime (`Date.now()`, the random suffix of
`Math.random().toString(36).substr(2, 9)`, `new Date().toISOString()`) are
supplied by an explicit oracle `Gen`.

The module-level helpers `emitOrderCreated` and `emitOrderUpdated` read the
process-wide router handle `(globalThis as any).__io`; they are modelled as
functions of a `Bool` saying whether that handle is present, returning the
emissions together with the console output of the call.
-/

namespace Vape

/-- Presence entry stored in the `connectedUsers` map by the `join-user`
handler: `{ socketId: socket.id, role, name, online: true }`. -/
structure UserEntry where
  socketId : String
  role : String
  name : String
  online : Bool
  deriving DecidableEq, Repr

/-- The insertion-ordered association list embedding the JavaScript `Map`
from user id to presence entry. -/
abbrev UserMap := List (String × UserEntry)

/-- JavaScript `Map.set k v`: updates the entry of an existing key in place
(the key keeps its original position), otherwise appends a new entry. -/
def mapSet (m : UserMap) (k : String) (v : UserEntry) : UserMap :=
  if m.any (fun p => p.1 = k) then
    m.map (fun p => if p.1 = k then (k, v) else p)
  else
    m ++ [(k, v)]

/-- JavaScript `Map.delete k`. -/
def mapDelete (m : UserMap) (k : String) : UserMap :=
  m.filter (fun p => p.1 ≠ k)

/-- JavaScript `Map.get k`: the entry of the key, if any. -/
def mapGet (m : UserMap) (k : String) : Option UserEntry :=
  (m.find? (fun p => p.1 = k)).map (fun p => p.2)

/-- Number of entries of the map that carry the given user id as key. -/
def countKey (m : UserMap) (k : String) : Nat :=
  (m.filter (fun p => p.1 = k)).length

/-- Server-side state: the `connectedUsers` map plus the room memberships
administered by `socket.join` (pairs of socket id and room name). -/
structure ServerState where
  connectedUsers : UserMap
  rooms : List (String × String)
  deriving DecidableEq, Repr

/-- The state of a freshly initialised server: empty `connectedUsers` map. -/
def initState : ServerState :=
  { connectedUsers := [], rooms := [] }

/-- Oracle for runtime-generated values: `Date.now()` in milliseconds, the
random suffix produced by `Math.random().toString(36).substr(2, 9)`, and
`new Date().toISOString()`. -/
structure Gen where
  nowMs : Nat
  rand : String
  nowIso : String
  deriving DecidableEq, Repr

/-- The generated message id, from the template literal
`msg-` + `Date.now()` + `-` + random suffix. -/
def mkMsgId (g : Gen) : String :=
  "msg-" ++ toString g.nowMs ++ "-" ++ g.rand

/-- The full message record built by the `send-message` handler. -/
structure FullMessage where
  id : String
  chatId : String
  senderId : String
  message : String
  timestamp : String
  recipientId : String
  deriving DecidableEq, Repr

/-- The `send-message` payload as the chat page emits it: chatId, message,
senderId, recipientId plus the id and timestamp of the message persisted by
the REST call (either may be absent).  The server handler destructures only
`chatId`, `message`, `recipientId` and `senderId` from it. -/
structure SendMessagePayload where
  chatId : String
  message : String
  recipientId : String
  senderId : String
  suppliedId : Option String
  suppliedTimestamp : Option String
  deriving DecidableEq, Repr

/-- The full message record the `send-message` handler constructs:
a generated id, the payload's chatId / senderId / message / recipientId, and
a generated ISO timestamp. -/
def mkFullMessage (g : Gen) (p : SendMessagePayload) : FullMessage :=
  { id := mkMsgId g
    chatId := p.chatId
    senderId := p.senderId
    message := p.message
    timestamp := g.nowIso
    recipientId := p.recipientId }

/-- An order record as passed to `emitOrderCreated` / `emitOrderUpdated`
(only the fields those functions read; `underscoreId` models `_id`). -/
structure Order where
  id : Option String
  underscoreId : Option String
  userId : Option String
  status : Option String
  deriving DecidableEq, Repr

/-- One element of the snapshot answered to `get-online-users`. -/
structure OnlineUser where
  id : String
  name : String
  role : String
  online : Bool
  deriving DecidableEq, Repr

/-- Payloads carried by server emissions. -/
inductive Payload where
  | presence (userId role name : String) (online : Bool)
  | message (m : FullMessage)
  | typingInfo (chatId name : String)
  | stopTypingInfo (chatId : String)
  | readInfo (chatId messageId userId : String)
  | newOrderPayment (orderId userId amount paymentMethod timestamp : String)
  | paymentConfirmed (orderId : String)
  | statusChanged (orderId : Option String) (status timestamp : String)
  | orderRecord (o : Order)
  | onlineList (l : List OnlineUser)
  deriving DecidableEq, Repr

/-- Where an emission is routed: `io.emit` (all connections),
`io.to(room).emit` (a channel), `socket.emit` (the emitting connection
itself), `socket.broadcast.to(room).emit` (a room minus the emitting
connection), or the `get-online-users` acknowledgement callback. -/
inductive Target where
  | all
  | channel (room : String)
  | direct (socketId : String)
  | roomExcept (room socketId : String)
  | ack (socketId : String)
  deriving DecidableEq, Repr

/-- One emission: routing target, event name, payload. -/
structure Emit where
  target : Target
  event : String
  payload : Payload
  deriving DecidableEq, Repr

/-- Client-to-server events, each tagged with the id of the emitting
socket. -/
inductive Event where
  | joinUser (conn userId role name : String)
  | sendMessage (conn : String) (p : SendMessagePayload)
  | typing (conn chatId userId name : String)
  | stopTyping (conn chatId : String)
  | markRead (conn chatId messageId userId : String)
  | orderPaid (conn orderId userId vendorId amount paymentMethod : String)
  | orderStatusUpdated (conn orderId status vendorId clientId : String)
  | getOnlineUsers (conn : String)
  | disconnect (conn : String)
  deriving DecidableEq, Repr

/-- One step of the server: the handler registered for the given event,
returning the new state and the emissions in program order. -/
def step (g : Gen) (s : ServerState) (e : Event) : ServerState × List Emit :=
  match e with
  | .joinUser conn userId role name =>
      ({ connectedUsers :=
           mapSet s.connectedUsers userId
             { socketId := conn, role := role, name := name, online := true },
         rooms := s.rooms ++ [(conn, "user-" ++ userId), (conn, role)] },
       [{ target := .all, event := "user-online",
          payload := .presence userId role name true }])
  | .sendMessage conn p =>
      (s,
       [{ target := .channel ("user-" ++ p.recipientId), event := "receive-message",
          payload := .message (mkFullMessage g p) },
        { target := .direct conn, event := "message-sent",
          payload := .message (mkFullMessage g p) }])
  | .typing conn chatId _userId name =>
      (s, [{ target := .roomExcept chatId conn, event := "user-typing",
             payload := .typingInfo chatId name }])
  | .stopTyping conn chatId =>
      (s, [{ target := .roomExcept chatId conn, event := "user-stop-typing",
             payload := .stopTypingInfo chatId }])
  | .markRead _conn chatId messageId userId =>
      (s, [{ target := .channel chatId, event := "message-read",
             payload := .readInfo chatId messageId userId }])
  | .orderPaid _conn orderId userId _vendorId amount paymentMethod =>
      (s, [{ target := .channel "vendor", event := "new-order-payment",
             payload := .newOrderPayment orderId userId amount paymentMethod g.nowIso },
           { target := .channel ("user-" ++ userId), event := "payment-confirmed",
             payload := .paymentConfirmed orderId }])
  | .orderStatusUpdated _conn orderId status _vendorId clientId =>
      (s, [{ target := .channel ("user-" ++ clientId), event := "order-status-changed",
             payload := .statusChanged (some orderId) status g.nowIso },
           { target := .channel "vendor", event := "order-status-changed",
             payload := .statusChanged (some orderId) status g.nowIso }])
  | .getOnlineUsers conn =>
      (s, [{ target := .ack conn, event := "get-online-users-callback",
             payload := .onlineList (s.connectedUsers.map (fun p =>
               { id := p.1, name := p.2.name, role := p.2.role, online := true })) }])
  | .disconnect conn =>
      match s.connectedUsers.find? (fun p => p.2.socketId = conn) with
      | some p =>
          ({ connectedUsers := mapDelete s.connectedUsers p.1,
             rooms := s.rooms.filter (fun q => q.1 ≠ conn) },
           [{ target := .all, event := "user-offline",
              payload := .presence p.1 p.2.role p.2.name false }])
      | none =>
          ({ s with rooms := s.rooms.filter (fun q => q.1 ≠ conn) }, [])

/-- Run a trace of events, each with its oracle, threading the state. -/
def run (s : ServerState) (tr : List (Gen × Event)) : ServerState :=
  tr.foldl (fun st ge => (step ge.1 st ge.2).1) s

/-- JavaScript truthiness of a possibly-undefined string field. -/
def jsTruthy : Option String → Bool
  | none => false
  | some s => s ≠ ""

/-- Template-literal interpolation of a possibly-undefined string
(an undefined value prints as the text `undefined`). -/
def jsShow : Option String → String
  | none => "undefined"
  | some s => s

/-- JavaScript `a || b` on possibly-undefined strings. -/
def jsOrElse (a b : Option String) : Option String :=
  if jsTruthy a then a else b

/-- `emitOrderCreated(order)`: reads the process-wide router handle; when it
is absent the function returns at once, otherwise it emits `order-created`
to the `vendor` room and, if `order.userId` is truthy, to the user's
personal room.  The second component is the console output of the call. -/
def emitOrderCreated (ioPresent : Bool) (o : Order) : List Emit × List String :=
  if ioPresent then
    ([{ target := .channel "vendor", event := "order-created",
        payload := .orderRecord o }] ++
     (if jsTruthy o.userId then
        [{ target := .channel ("user-" ++ jsShow o.userId), event := "order-created",
           payload := .orderRecord o }]
      else []), [])
  else ([], [])

/-- `emitOrderUpdated(order)`: reads the process-wide router handle; when it
is absent the function returns at once.  Otherwise it emits `order-updated`
to the `vendor` room, `order-updated` to the user's personal room if
`order.userId` is truthy, and, if `order.status` is truthy, an
`order-status-changed` event with `{orderId: order.id || order._id,
status: order.status, timestamp}` to the user's personal room.  The second
component is the console output of the call. -/
def emitOrderUpdated (g : Gen) (ioPresent : Bool) (o : Order) : List Emit × List String :=
  if ioPresent then
    ([{ target := .channel "vendor", event := "order-updated",
        payload := .orderRecord o }] ++
     (if jsTruthy o.userId then
        [{ target := .channel ("user-" ++ jsShow o.userId), event := "order-updated",
           payload := .orderRecord o }]
      else []) ++
     (if jsTruthy o.status then
        [{ target := .channel ("user-" ++ jsShow o.userId), event := "order-status-changed",
           payload := .statusChanged (jsOrElse o.id o.underscoreId) (jsShow o.status) g.nowIso }]
      else []), [])
  else ([], [])

/-- Non-emptiness of the visible fields of one presence-registry entry:
user id (the key), role and name. -/
def entryOK (p : String × UserEntry) : Prop :=
  p.1 ≠ "" ∧ p.2.role ≠ "" ∧ p.2.name ≠ ""

/-- The registry invariant of claim C2: every presence entry that has been
set carries a non-empty user id, role and name. -/
def presenceOK (s : ServerState) : Prop :=
  ∀ p ∈ s.connectedUsers, entryOK p

instance (p : String × UserEntry) : Decidable (entryOK p) := by
  unfold entryOK
  infer_instance

instance (s : ServerState) : Decidable (presenceOK s) := by
  unfold presenceOK
  infer_instance

/-- Does a `join-user` event carry non-empty userId, role and name
(vacuously true for every other event)? -/
def joinFieldsOK : Event → Bool
  | .joinUser _ u r n => u ≠ "" && r ≠ "" && n ≠ ""
  | _ => true

/-- Does the event neither join under the given user id nor issue a
`join-user` or `disconnect` on the given connection?  Used to delimit the
events that may occur between a join and the matching disconnect in the
round-trip property. -/
def avoids (u c : String) : Event → Bool
  | .joinUser c' u' _ _ => u' ≠ u && c' ≠ c
  | .disconnect c' => c' ≠ c
  | _ => true

/-- The registry pins the given user to the given connection: the user's
entry is present with this connection id, role and name; every entry whose
connection id is this connection is that entry; and every entry keyed by
this user is that entry. -/
def pinned (u c r n : String) (m : UserMap) : Prop :=
  (u, ({ socketId := c, role := r, name := n, online := true } : UserEntry)) ∈ m ∧
  (∀ p ∈ m, p.2.socketId = c →
    p = (u, { socketId := c, role := r, name := n, online := true })) ∧
  (∀ p ∈ m, p.1 = u →
    p = (u, { socketId := c, role := r, name := n, online := true }))

/-! ### Concrete sample inputs used by witnesses and counterexamples -/

def gA : Gen :=
  { nowMs := 1700, rand := "a1b2c3d4e", nowIso := "2023-11-14T22:13:20.000Z" }

def gB : Gen :=
  { nowMs := 1701, rand := "f5g6h7i8j", nowIso := "2023-11-14T22:13:21.000Z" }

/-- A send-message payload that already carries the id and timestamp of the
message persisted by the REST call, as the chat page sends it. -/
def pDb : SendMessagePayload :=
  { chatId := "chat-1", message := "hello", recipientId := "B", senderId := "A",
    suppliedId := some "db-id-42",
    suppliedTimestamp := some "2023-11-14T22:13:19.000Z" }

/-- An order without a status field. -/
def oC : Order :=
  { id := some "o1", underscoreId := none, userId := some "C", status := none }

/-- An order whose status field is set. -/
def oShip : Order :=
  { id := some "o2", underscoreId := none, userId := some "C", status := some "shipped" }

/-- A registry state with one identified connection (user B on socket sB). -/
def sB : ServerState :=
  { connectedUsers :=
      [("B", { socketId := "sB", role := "client", name := "Bea", online := true })],
    rooms := [("sB", "user-B"), ("sB", "client")] }

/-- Trace for the C5 counterexample: connection s9 joins as bob, connection
s1 joins as ann, then the same connection s1 issues a second join-user as
bob (which overwrites bob's entry, ahead of ann's in insertion order). -/
def trC5 : List (Gen × Event) :=
  [(gA, .joinUser "s9" "bob" "vendor" "Bob"),
   (gA, .joinUser "s1" "ann" "client" "Ann"),
   (gA, .joinUser "s1" "bob" "vendor" "Bob")]

/-- A well-formed sample trace used as a witness input. -/
def trW : List (Gen × Event) :=
  [(gA, .joinUser "s1" "u1" "client" "Ann"),
   (gB, .sendMessage "s1" pDb),
   (gB, .disconnect "s1")]

/-- A registry state holding one vendor, unrelated to user u1 and socket s1. -/
def sV : ServerState :=
  { connectedUsers :=
      [("v1", { socketId := "sv", role := "vendor", name := "Vic", online := true })],
    rooms := [] }

/-- An intervening trace (another user joining on another connection). -/
def trB : List (Gen × Event) :=
  [(gB, .joinUser "s2" "u2" "vendor" "Ben")]

/-! ### Helper lemmas about the embedded map and the step function -/

theorem mem_of_mem_mapSet {m : UserMap} {k : String} {v : UserEntry}
    {p : String × UserEntry} (h : p ∈ mapSet m k v) : p = (k, v) ∨ p ∈ m := by
  unfold mapSet at h
  split at h
  · rcases List.mem_map.mp h with ⟨q, hq, hmap⟩
    by_cases hq1 : q.1 = k
    · left
      rw [if_pos hq1] at hmap
      exact hmap.symm
    · right
      rw [if_neg hq1] at hmap
      exact hmap ▸ hq
  · rcases List.mem_append.mp h with hq | hq
    · right
      exact hq
    · left
      exact List.mem_singleton.mp hq

theorem mapSet_self_mem (m : UserMap) (k : String) (v : UserEntry) :
    (k, v) ∈ mapSet m k v := by
  unfold mapSet
  split
  case isTrue h =>
    rcases List.any_eq_true.mp h with ⟨q, hq, hq1⟩
    have hq1' : q.1 = k := by simpa using hq1
    exact List.mem_map.mpr ⟨q, hq, by rw [if_pos hq1']⟩
  case isFalse h =>
    exact List.mem_append.mpr (Or.inr (List.mem_singleton.mpr rfl))

theorem find?_append_of_none {α : Type} {pred : α → Bool} {l₁ : List α}
    (h : l₁.find? pred = none) (l₂ : List α) :
    (l₁ ++ l₂).find? pred = l₂.find? pred := by
  induction l₁ with
  | nil => simp
  | cons a t ih =>
    rw [List.find?_cons] at h
    rw [List.cons_append, List.find?_cons]
    split at h
    · exact absurd h (by simp)
    · rw [ih h]

theorem find?_eq_first {α : Type} (pred : α → Bool) (a : α) :
    ∀ l : List α, a ∈ l → pred a = true → (∀ x ∈ l, pred x = true → x = a) →
      l.find? pred = some a := by
  intro l
  induction l with
  | nil => intro h; cases h
  | cons b t ih =>
    intro hmem hpa hall
    by_cases hb : pred b = true
    · rw [List.find?_cons_of_pos _ hb, hall b (List.mem_cons_self b t) hb]
    · rw [List.find?_cons_of_neg _ hb]
      rcases List.mem_cons.mp hmem with rfl | hmem'
      · exact absurd hpa hb
      · exact ih hmem' hpa (fun x hx hpx => hall x (List.mem_cons_of_mem b hx) hpx)

theorem mapSet_key_unique {m : UserMap} {k : String} {v : UserEntry}
    {p : String × UserEntry} (h : p ∈ mapSet m k v) (hk : p.1 = k) :
    p = (k, v) := by
  unfold mapSet at h
  split at h
  case isTrue hany =>
    rcases List.mem_map.mp h with ⟨q, hq, hmap⟩
    by_cases hq1 : q.1 = k
    · rw [if_pos hq1] at hmap
      exact hmap.symm
    · rw [if_neg hq1] at hmap
      rw [← hmap] at hk
      exact absurd hk hq1
  case isFalse hany =>
    rcases List.mem_append.mp h with hq | hq
    · exfalso
      exact hany (List.any_eq_true.mpr ⟨p, hq, by simpa using hk⟩)
    · exact List.mem_singleton.mp hq

theorem mapGet_mapSet_self (m : UserMap) (k : String) (v : UserEntry) :
    mapGet (mapSet m k v) k = some v := by
  unfold mapGet
  rw [find?_eq_first (fun p => p.1 = k) (k, v) _ (mapSet_self_mem m k v) (by simp)
      (fun x hx hpx => mapSet_key_unique hx (by simpa using hpx))]
  rfl

theorem keys_mapSet (m : UserMap) (k : String) (v : UserEntry) :
    (mapSet m k v).map Prod.fst
      = if m.any (fun p => p.1 = k) then m.map Prod.fst else m.map Prod.fst ++ [k] := by
  unfold mapSet
  split
  case isTrue h =>
    rw [List.map_map]
    apply List.map_congr_left
    intro p _
    by_cases hp1 : p.1 = k
    · simp [hp1]
    · simp [hp1]
  case isFalse h =>
    simp

theorem nodupKeys_mapSet {m : UserMap} (k : String) (v : UserEntry)
    (h : (m.map Prod.fst).Nodup) : ((mapSet m k v).map Prod.fst).Nodup := by
  rw [keys_mapSet]
  split
  · exact h
  case isFalse hany =>
    have hk : k ∉ m.map Prod.fst := by
      intro hmem
      rcases List.mem_map.mp hmem with ⟨p, hp, hp1⟩
      exact hany (List.any_eq_true.mpr ⟨p, hp, by simpa using hp1⟩)
    simp only [List.nodup_append, List.nodup_singleton, true_and]
    exact ⟨h, by simpa [List.disjoint_singleton] using hk⟩

theorem countKey_eq_zero {m : UserMap} {k : String}
    (h : ∀ p ∈ m, p.1 ≠ k) : countKey m k = 0 := by
  unfold countKey
  have : m.filter (fun p => p.1 = k) = [] := by
    rw [List.filter_eq_nil_iff]
    intro p hp
    simpa using h p hp
  rw [this]
  rfl

theorem countKey_le_one {m : UserMap} (k : String)
    (h : (m.map Prod.fst).Nodup) : countKey m k ≤ 1 := by
  induction m with
  | nil => simp [countKey]
  | cons q t ih =>
    rw [List.map_cons, List.nodup_cons] at h
    by_cases hq : q.1 = k
    · have hnot : k ∉ t.map Prod.fst := hq ▸ h.1
      have h0 : countKey t k = 0 :=
        countKey_eq_zero (fun p hp hpk => hnot (hpk ▸ List.mem_map_of_mem Prod.fst hp))
      unfold countKey at h0 ⊢
      rw [List.filter_cons, if_pos (by simpa using hq)]
      simp [h0, List.length_eq_zero.mp h0]
    · unfold countKey at ih ⊢
      rw [List.filter_cons, if_neg (by simpa using hq)]
      exact ih h.2

theorem countKey_mapSet_self {m : UserMap} (k : String) (v : UserEntry)
    (h : (m.map Prod.fst).Nodup) : countKey (mapSet m k v) k = 1 := by
  have h1 : countKey (mapSet m k v) k ≤ 1 := countKey_le_one k (nodupKeys_mapSet k v h)
  have h2 : 1 ≤ countKey (mapSet m k v) k := by
    unfold countKey
    have hmem : (k, v) ∈ (mapSet m k v).filter (fun p => p.1 = k) :=
      List.mem_filter.mpr ⟨mapSet_self_mem m k v, by simp⟩
    have := List.length_pos.mpr (List.ne_nil_of_mem hmem)
    omega
  omega

theorem step_disconnect_found (g : Gen) (s : ServerState) (c u : String) (e : UserEntry)
    (h : s.connectedUsers.find? (fun p => p.2.socketId = c) = some (u, e)) :
    step g s (.disconnect c)
      = ({ connectedUsers := mapDelete s.connectedUsers u,
           rooms := s.rooms.filter (fun q => q.1 ≠ c) },
         [{ target := .all, event := "user-offline",
            payload := .presence u e.role e.name false }]) := by
  simp only [step]
  rw [h]

theorem step_disconnect_none (g : Gen) (s : ServerState) (c : String)
    (h : s.connectedUsers.find? (fun p => p.2.socketId = c) = none) :
    step g s (.disconnect c)
      = ({ s with rooms := s.rooms.filter (fun q => q.1 ≠ c) }, []) := by
  simp only [step]
  rw [h]

theorem presenceOK_step (g : Gen) (s : ServerState) (e : Event)
    (hok : presenceOK s) (hev : joinFieldsOK e = true) :
    presenceOK (step g s e).1 := by
  cases e with
  | joinUser conn u r n =>
    simp only [joinFieldsOK, Bool.and_eq_true, decide_eq_true_eq] at hev
    have hred : ((step g s (.joinUser conn u r n)).1).connectedUsers
        = mapSet s.connectedUsers u
            { socketId := conn, role := r, name := n, online := true } := rfl
    intro p hp
    rw [hred] at hp
    rcases mem_of_mem_mapSet hp with rfl | hpm
    · exact ⟨hev.1.1, hev.1.2, hev.2⟩
    · exact hok p hpm
  | disconnect c =>
    cases hf : s.connectedUsers.find? (fun p => p.2.socketId = c) with
    | some q =>
      rw [step_disconnect_found g s c q.1 q.2 hf]
      intro p hp
      exact hok p (List.mem_of_mem_filter hp)
    | none =>
      rw [step_disconnect_none g s c hf]
      exact hok
  | sendMessage conn p => exact hok
  | typing conn chatId userId name => exact hok
  | stopTyping conn chatId => exact hok
  | markRead conn chatId messageId userId => exact hok
  | orderPaid conn orderId userId vendorId amount paymentMethod => exact hok
  | orderStatusUpdated conn orderId status vendorId clientId => exact hok
  | getOnlineUsers conn => exact hok

theorem presenceOK_run (tr : List (Gen × Event)) :
    ∀ s : ServerState, presenceOK s → (∀ ge ∈ tr, joinFieldsOK ge.2 = true) →
      presenceOK (run s tr) := by
  induction tr with
  | nil => intro s h _; exact h
  | cons ge t ih =>
    intro s h hall
    exact ih (step ge.1 s ge.2).1
      (presenceOK_step ge.1 s ge.2 h (hall ge (List.mem_cons_self ge t)))
      (fun x hx => hall x (List.mem_cons_of_mem ge hx))

theorem pinned_after_join (g : Gen) (s : ServerState) (c u r n : String)
    (hc : ∀ p ∈ s.connectedUsers, p.2.socketId ≠ c) :
    pinned u c r n ((step g s (.joinUser c u r n)).1).connectedUsers := by
  have hred : ((step g s (.joinUser c u r n)).1).connectedUsers
      = mapSet s.connectedUsers u
          { socketId := c, role := r, name := n, online := true } := rfl
  rw [hred]
  refine ⟨mapSet_self_mem _ _ _, ?_, ?_⟩
  · intro p hp hpc
    rcases mem_of_mem_mapSet hp with rfl | hpm
    · rfl
    · exact absurd hpc (hc p hpm)
  · intro p hp hpu
    exact mapSet_key_unique hp hpu

theorem pinned_step (g : Gen) (s : ServerState) (e : Event) (u c r n : String)
    (hav : avoids u c e = true) (hp : pinned u c r n s.connectedUsers) :
    pinned u c r n ((step g s e).1).connectedUsers := by
  cases e with
  | joinUser c' u' r' n' =>
    simp only [avoids, Bool.and_eq_true, decide_eq_true_eq] at hav
    obtain ⟨hu', hc'⟩ := hav
    have hred : ((step g s (.joinUser c' u' r' n')).1).connectedUsers
        = mapSet s.connectedUsers u'
            { socketId := c', role := r', name := n', online := true } := rfl
    rw [hred]
    obtain ⟨hmem, hsock, hkey⟩ := hp
    refine ⟨?_, ?_, ?_⟩
    · unfold mapSet
      split
      · refine List.mem_map.mpr ⟨_, hmem, ?_⟩
        rw [if_neg (fun h => hu' h.symm)]
      · exact List.mem_append.mpr (Or.inl hmem)
    · intro p hpm hpc
      rcases mem_of_mem_mapSet hpm with rfl | hpm'
      · exact absurd hpc hc'
      · exact hsock p hpm' hpc
    · intro p hpm hpu
      rcases mem_of_mem_mapSet hpm with rfl | hpm'
      · exact absurd hpu hu'
      · exact hkey p hpm' hpu
  | disconnect c' =>
    simp only [avoids, decide_eq_true_eq] at hav
    obtain ⟨hmem, hsock, hkey⟩ := hp
    cases hf : s.connectedUsers.find? (fun p => p.2.socketId = c') with
    | none =>
      rw [step_disconnect_none g s c' hf]
      exact ⟨hmem, hsock, hkey⟩
    | some q =>
      rw [step_disconnect_found g s c' q.1 q.2 hf]
      have hq : q ∈ s.connectedUsers := List.mem_of_find?_eq_some hf
      have hqc : q.2.socketId = c' := by simpa using List.find?_some hf
      have hq1 : q.1 ≠ u := by
        intro h
        have hqe := hkey q hq h
        rw [hqe] at hqc
        exact hav hqc.symm
      refine ⟨?_, ?_, ?_⟩
      · exact List.mem_filter.mpr ⟨hmem, by simpa using fun h => hq1 h.symm⟩
      · intro p hpm hpc
        exact hsock p (List.mem_of_mem_filter hpm) hpc
      · intro p hpm hpu
        exact hkey p (List.mem_of_mem_filter hpm) hpu
  | sendMessage conn p => exact hp
  | typing conn chatId userId name => exact hp
  | stopTyping conn chatId => exact hp
  | markRead conn chatId messageId userId => exact hp
  | orderPaid conn orderId userId vendorId amount paymentMethod => exact hp
  | orderStatusUpdated conn orderId status vendorId clientId => exact hp
  | getOnlineUsers conn => exact hp

theorem pinned_run (u c r n : String) (tr : List (Gen × Event)) :
    ∀ s : ServerState, (∀ ge ∈ tr, avoids u c ge.2 = true) →
      pinned u c r n s.connectedUsers → pinned u c r n (run s tr).connectedUsers := by
  induction tr with
  | nil => intro s _ hp; exact hp
  | cons ge t ih =>
    intro s hall hp
    exact ih (step ge.1 s ge.2).1
      (fun x hx => hall x (List.mem_cons_of_mem ge hx))
      (pinned_step ge.1 s ge.2 u c r n (hall ge (List.mem_cons_self ge t)) hp)

theorem disconnect_of_pinned (g : Gen) (s : ServerState) (u c r n : String)
    (hp : pinned u c r n s.connectedUsers) :
    (step g s (.disconnect c)).2
      = [{ target := .all, event := "user-offline",
           payload := .presence u r n false }] := by
  obtain ⟨hmem, hsock, _⟩ := hp
  have hfind : s.connectedUsers.find? (fun p => p.2.socketId = c)
      = some (u, { socketId := c, role := r, name := n, online := true }) := by
    apply find?_eq_first _ _ _ hmem (by simp)
    intro x hx hpx
    exact hsock x hx (by simpa using hpx)
  rw [step_disconnect_found g s c u
    { socketId := c, role := r, name := n, online := true } hfind]

/-! ### Claims -/

/-- C1: processing `send-message` with recipientId B while B has a presence
entry produces exactly two emissions: one `receive-message` to the personal
channel user-B and one `message-sent` to the emitting connection itself,
both carrying the same full message record (whose senderId, recipientId and
chatId come from the payload); every channel-targeted emission of the step
goes to user-B, so no third party's personal channel is reached. -/
theorem claim1_message_routing (g : Gen) (s : ServerState) (conn : String)
    (p : SendMessagePayload)
    (hB : mapGet s.connectedUsers p.recipientId ≠ none) :
    (step g s (.sendMessage conn p)).2
      = [{ target := .channel ("user-" ++ p.recipientId), event := "receive-message",
           payload := .message (mkFullMessage g p) },
         { target := .direct conn, event := "message-sent",
           payload := .message (mkFullMessage g p) }] ∧
    (∀ e ∈ (step g s (.sendMessage conn p)).2, ∀ room : String,
        e.target = Target.channel room → room = "user-" ++ p.recipientId) ∧
    (mkFullMessage g p).senderId = p.senderId ∧
    (mkFullMessage g p).recipientId = p.recipientId ∧
    (mkFullMessage g p).chatId = p.chatId := by
  refine ⟨rfl, ?_, rfl, rfl, rfl⟩
  have hlist : (step g s (.sendMessage conn p)).2
      = [{ target := .channel ("user-" ++ p.recipientId), event := "receive-message",
           payload := .message (mkFullMessage g p) },
         { target := .direct conn, event := "message-sent",
           payload := .message (mkFullMessage g p) }] := rfl
  rw [hlist]
  intro e he room hroom
  rcases List.mem_cons.mp he with rfl | he2
  · simp only [Target.channel.injEq] at hroom
    exact hroom.symm
  · rcases List.mem_singleton.mp he2 with rfl
    simp at hroom

/-- Witness for claim1_message_routing: user B is registered in sB and the
payload pDb addresses B. -/
theorem claim1_witness :
    (mapGet sB.connectedUsers pDb.recipientId ≠ none) ∧
    ((step gA sB (.sendMessage "sA" pDb)).2
      = [{ target := .channel ("user-" ++ pDb.recipientId), event := "receive-message",
           payload := .message (mkFullMessage gA pDb) },
         { target := .direct "sA", event := "message-sent",
           payload := .message (mkFullMessage gA pDb) }] ∧
    (∀ e ∈ (step gA sB (.sendMessage "sA" pDb)).2, ∀ room : String,
        e.target = Target.channel room → room = "user-" ++ pDb.recipientId) ∧
    (mkFullMessage gA pDb).senderId = pDb.senderId ∧
    (mkFullMessage gA pDb).recipientId = pDb.recipientId ∧
    (mkFullMessage gA pDb).chatId = pDb.chatId) :=
  ⟨by decide, claim1_message_routing gA sB "sA" pDb (by decide)⟩

/-- C2 (counterexample): the claim fails as stated — a `join-user` event
carrying empty userId, role and name is processed without any validation
and creates a presence entry whose user id, role and name are all empty,
in a state reachable from the initial state by one event. -/
theorem claim2_counterexample :
    ¬ presenceOK (run initState [(gA, .joinUser "s1" "" "" "")]) := by
  decide

/-- C2 (amended): provided every `join-user` event of the trace carries a
non-empty userId, role and name, the presence registry satisfies the
invariant (non-empty user id, role and name in every entry) after every
event, starting from any state that satisfies it. -/
theorem claim2_nonempty_invariant (tr : List (Gen × Event)) (s : ServerState)
    (h0 : presenceOK s) (hev : ∀ ge ∈ tr, joinFieldsOK ge.2 = true) :
    presenceOK (run s tr) :=
  presenceOK_run tr s h0 hev

/-- Witness for claim2_nonempty_invariant on the concrete trace trW. -/
theorem claim2_witness :
    presenceOK initState ∧ (∀ ge ∈ trW, joinFieldsOK ge.2 = true) ∧
    presenceOK (run initState trW) :=
  ⟨by decide, by decide,
   claim2_nonempty_invariant trW initState (by decide) (by decide)⟩

/-- C3 (counterexample): the claim fails as stated — when the same
connection issues two `join-user` events under distinct user ids and then
disconnects, the disconnect handler deletes only the first matching entry
and breaks, so the registry ends with one entry although it held zero
before the joins. -/
theorem claim3_counterexample :
    initState.connectedUsers.length = 0 ∧
    (run initState [(gA, .joinUser "s1" "u1" "client" "Ann"),
                    (gA, .joinUser "s1" "u2" "vendor" "Ben"),
                    (gA, .disconnect "s1")]).connectedUsers.length = 1 := by
  decide

/-- C3 (amended): when the connection issues exactly one `join-user`, under
a user id not already present and on a connection id not already in the
registry, the registry size after the disconnect equals its value before
the join. -/
theorem claim3_no_leak_single_join (s : ServerState) (g g' : Gen) (c u r n : String)
    (hu : ∀ p ∈ s.connectedUsers, p.1 ≠ u)
    (hc : ∀ p ∈ s.connectedUsers, p.2.socketId ≠ c) :
    ((step g' (step g s (.joinUser c u r n)).1 (.disconnect c)).1).connectedUsers.length
      = s.connectedUsers.length := by
  have hany : (s.connectedUsers.any (fun p => p.1 = u)) = false := by
    rw [List.any_eq_false]
    intro p hp
    simpa using hu p hp
  have h1 : (step g s (.joinUser c u r n)).1.connectedUsers
      = s.connectedUsers
          ++ [(u, { socketId := c, role := r, name := n, online := true })] := by
    show mapSet s.connectedUsers u _ = _
    unfold mapSet
    rw [if_neg (by simp [hany])]
  have hnone : s.connectedUsers.find? (fun p => p.2.socketId = c) = none := by
    rw [List.find?_eq_none]
    intro p hp
    simpa using hc p hp
  have hfind : (step g s (.joinUser c u r n)).1.connectedUsers.find?
      (fun p => p.2.socketId = c)
      = some (u, { socketId := c, role := r, name := n, online := true }) := by
    rw [h1, find?_append_of_none hnone]
    simp [List.find?]
  rw [step_disconnect_found g' _ c u _ hfind]
  show (mapDelete (step g s (.joinUser c u r n)).1.connectedUsers u).length = _
  rw [h1]
  unfold mapDelete
  rw [List.filter_append,
    List.filter_eq_self.mpr (fun p hp => by simpa using hu p hp)]
  simp

/-- Witness for claim3_no_leak_single_join: a fresh user joins on a fresh
connection over the one-vendor registry sV and the size returns to 1. -/
theorem claim3_witness :
    (∀ p ∈ sV.connectedUsers, p.1 ≠ "u1") ∧
    (∀ p ∈ sV.connectedUsers, p.2.socketId ≠ "s1") ∧
    ((step gB (step gA sV (.joinUser "s1" "u1" "client" "Ann")).1
        (.disconnect "s1")).1).connectedUsers.length = sV.connectedUsers.length :=
  ⟨by decide, by decide,
   claim3_no_leak_single_join sV gA gB "s1" "u1" "client" "Ann" (by decide) (by decide)⟩

/-- C4 (counterexample): the claim fails as stated — the payload pDb
carries a persisted id and timestamp, yet both broadcast copies carry the
generated full message record, whose id and timestamp differ from the
supplied ones. -/
theorem claim4_counterexample :
    (step gA initState (.sendMessage "sA" pDb)).2.map Emit.payload
      = [.message (mkFullMessage gA pDb), .message (mkFullMessage gA pDb)] ∧
    some (mkFullMessage gA pDb).id ≠ pDb.suppliedId ∧
    some (mkFullMessage gA pDb).timestamp ≠ pDb.suppliedTimestamp := by
  decide

/-- C4 (amended): the server always constructs the full message record with
a freshly generated id and timestamp; an id or timestamp supplied in the
payload is ignored (the record does not depend on those fields at all). -/
theorem claim4_server_generates (g : Gen) (s : ServerState) (conn : String)
    (p : SendMessagePayload) :
    (step g s (.sendMessage conn p)).2
      = [{ target := .channel ("user-" ++ p.recipientId), event := "receive-message",
           payload := .message (mkFullMessage g p) },
         { target := .direct conn, event := "message-sent",
           payload := .message (mkFullMessage g p) }] ∧
    (mkFullMessage g p).id = mkMsgId g ∧
    (mkFullMessage g p).timestamp = g.nowIso ∧
    (∀ i t : Option String,
        mkFullMessage g { p with suppliedId := i, suppliedTimestamp := t }
          = mkFullMessage g p) :=
  ⟨rfl, rfl, rfl, fun i t => rfl⟩

/-- C5 (counterexample): the claim fails as stated — after the trace trC5,
user ann joined on connection s1 (the online broadcast carried ann, client,
Ann) and s1 then disconnects with no intervening re-join by ann; yet the
only `user-offline` emitted carries bob's values, because the same
connection had also joined as bob, whose entry precedes ann's. -/
theorem claim5_counterexample :
    (step gB (run initState trC5) (.disconnect "s1")).2
      = [{ target := .all, event := "user-offline",
           payload := .presence "bob" "vendor" "Bob" false }] ∧
    (∀ e ∈ (step gB (run initState trC5) (.disconnect "s1")).2,
        e.payload ≠ Payload.presence "ann" "client" "Ann" false) := by
  decide

/-- C5 (amended): for a join on a connection id not currently in the
registry, followed by any events that neither re-join the same user id nor
issue a join-user or disconnect on the same connection, the `user-offline`
broadcast at the disconnect carries exactly the {userId, role, name} of
the `user-online` broadcast of the join. -/
theorem claim5_round_trip (s : ServerState) (g g' : Gen) (c u r n : String)
    (tr : List (Gen × Event))
    (hc : ∀ p ∈ s.connectedUsers, p.2.socketId ≠ c)
    (htr : ∀ ge ∈ tr, avoids u c ge.2 = true) :
    (step g s (.joinUser c u r n)).2
      = [{ target := .all, event := "user-online",
           payload := .presence u r n true }] ∧
    (step g' (run (step g s (.joinUser c u r n)).1 tr) (.disconnect c)).2
      = [{ target := .all, event := "user-offline",
           payload := .presence u r n false }] :=
  ⟨rfl, disconnect_of_pinned g' _ u c r n
     (pinned_run u c r n tr _ htr (pinned_after_join g s c u r n hc))⟩

/-- Witness for claim5_round_trip with the intervening trace trB. -/
theorem claim5_witness :
    (∀ p ∈ initState.connectedUsers, p.2.socketId ≠ "s1") ∧
    (∀ ge ∈ trB, avoids "u1" "s1" ge.2 = true) ∧
    ((step gA initState (.joinUser "s1" "u1" "client" "Ann")).2
        = [{ target := .all, event := "user-online",
             payload := .presence "u1" "client" "Ann" true }] ∧
     (step gB (run (step gA initState (.joinUser "s1" "u1" "client" "Ann")).1 trB)
        (.disconnect "s1")).2
        = [{ target := .all, event := "user-offline",
             payload := .presence "u1" "client" "Ann" false }]) :=
  ⟨by decide, by decide,
   claim5_round_trip initState gA gB "s1" "u1" "client" "Ann" trB
     (by decide) (by decide)⟩

/-- C6: two consecutive `join-user` events under the same user id (possibly
from different connections) leave exactly one entry for that user id in the
registry, holding the connection id, role and name of the join processed
last. -/
theorem claim6_last_join_wins (s : ServerState) (g g' : Gen)
    (c1 c2 u r1 n1 r2 n2 : String)
    (h : (s.connectedUsers.map Prod.fst).Nodup) :
    countKey ((step g' (step g s (.joinUser c1 u r1 n1)).1
        (.joinUser c2 u r2 n2)).1).connectedUsers u = 1 ∧
    mapGet ((step g' (step g s (.joinUser c1 u r1 n1)).1
        (.joinUser c2 u r2 n2)).1).connectedUsers u
      = some { socketId := c2, role := r2, name := n2, online := true } := by
  have hred : ((step g' (step g s (.joinUser c1 u r1 n1)).1
      (.joinUser c2 u r2 n2)).1).connectedUsers
      = mapSet (mapSet s.connectedUsers u
          { socketId := c1, role := r1, name := n1, online := true }) u
          { socketId := c2, role := r2, name := n2, online := true } := rfl
  rw [hred]
  exact ⟨countKey_mapSet_self u _ (nodupKeys_mapSet u _ h),
         mapGet_mapSet_self _ u _⟩

/-- Witness for claim6_last_join_wins: user u7 joins from s1 then from s2. -/
theorem claim6_witness :
    (initState.connectedUsers.map Prod.fst).Nodup ∧
    (countKey ((step gB (step gA initState (.joinUser "s1" "u7" "client" "Ann")).1
        (.joinUser "s2" "u7" "client" "Ann")).1).connectedUsers "u7" = 1 ∧
     mapGet ((step gB (step gA initState (.joinUser "s1" "u7" "client" "Ann")).1
        (.joinUser "s2" "u7" "client" "Ann")).1).connectedUsers "u7"
       = some { socketId := "s2", role := "client", name := "Ann", online := true }) :=
  ⟨by decide,
   claim6_last_join_wins initState gA gB "s1" "s2" "u7" "client" "Ann" "client" "Ann"
     (by decide)⟩

/-- C7: on disconnect of a connection whose user entry is present and is
the only entry carrying that connection id, the handler removes exactly the
entries keyed by that user and emits one `user-offline` broadcast; on
disconnect of a connection matching no entry, the registry is unchanged and
nothing is emitted. -/
theorem claim7_disconnect_cases (g : Gen) (s : ServerState) (c : String) :
    (∀ u e, (u, e) ∈ s.connectedUsers → e.socketId = c →
      (∀ p ∈ s.connectedUsers, p.2.socketId = c → p = (u, e)) →
      ((step g s (.disconnect c)).1.connectedUsers
          = s.connectedUsers.filter (fun p => p.1 ≠ u) ∧
       (step g s (.disconnect c)).2
          = [{ target := .all, event := "user-offline",
               payload := .presence u e.role e.name false }])) ∧
    ((∀ p ∈ s.connectedUsers, p.2.socketId ≠ c) →
      ((step g s (.disconnect c)).1.connectedUsers = s.connectedUsers ∧
       (step g s (.disconnect c)).2 = [])) := by
  constructor
  · intro u e hmem hsc huniq
    have hfind : s.connectedUsers.find? (fun p => p.2.socketId = c) = some (u, e) := by
      apply find?_eq_first _ _ _ hmem (by simpa using hsc)
      intro x hx hpx
      exact huniq x hx (by simpa using hpx)
    rw [step_disconnect_found g s c u e hfind]
    exact ⟨rfl, rfl⟩
  · intro hno
    have hfind : s.connectedUsers.find? (fun p => p.2.socketId = c) = none := by
      rw [List.find?_eq_none]
      intro p hp
      simpa using hno p hp
    rw [step_disconnect_none g s c hfind]
    exact ⟨rfl, rfl⟩

/-- Witness for claim7_disconnect_cases: in sB, disconnecting sB removes
B's entry and emits one user-offline; disconnecting the never-joined zz
leaves the registry unchanged and emits nothing. -/
theorem claim7_witness :
    ((step gA sB (.disconnect "sB")).1.connectedUsers
        = sB.connectedUsers.filter (fun p => p.1 ≠ "B") ∧
     (step gA sB (.disconnect "sB")).2
        = [{ target := .all, event := "user-offline",
             payload := .presence "B" "client" "Bea" false }]) ∧
    ((step gA sB (.disconnect "zz")).1.connectedUsers = sB.connectedUsers ∧
     (step gA sB (.disconnect "zz")).2 = []) :=
  ⟨(claim7_disconnect_cases gA sB "sB").1 "B"
     { socketId := "sB", role := "client", name := "Bea", online := true }
     (by decide) (by decide) (by decide),
   (claim7_disconnect_cases gA sB "zz").2 (by decide)⟩

/-- C8 (counterexample): the claim fails as stated — with the router handle
absent, emitOrderCreated and emitOrderUpdated emit nothing AND log nothing:
the console output of the call is empty, contradicting the claim that the
condition is logged. -/
theorem claim8_counterexample :
    emitOrderCreated false oC = ([], []) ∧ emitOrderUpdated gA false oC = ([], []) := by
  decide

/-- C8 (amended): with the router handle absent, every call to
emitOrderCreated or emitOrderUpdated is a silent no-op that does not throw:
no event is emitted, nothing is logged, and no state is touched. -/
theorem claim8_silent_noop (g : Gen) (o : Order) :
    emitOrderCreated false o = ([], []) ∧ emitOrderUpdated g false o = ([], []) :=
  ⟨rfl, rfl⟩

/-- C9 (counterexample): the claim fails as stated — for the order oShip
(status set, router present), the derived order-status-changed event is
emitted to the client's personal channel user-C only; no emission of the
call targets the vendor role channel with event order-status-changed. -/
theorem claim9_counterexample :
    (emitOrderUpdated gA true oShip).1
      = [{ target := .channel "vendor", event := "order-updated",
           payload := .orderRecord oShip },
         { target := .channel "user-C", event := "order-updated",
           payload := .orderRecord oShip },
         { target := .channel "user-C", event := "order-status-changed",
           payload := .statusChanged (some "o2") "shipped" gA.nowIso }] ∧
    (∀ e ∈ (emitOrderUpdated gA true oShip).1,
        ¬ (e.target = Target.channel "vendor" ∧ e.event = "order-status-changed")) := by
  decide

/-- C9 (amended): with the router handle present and a truthy status field,
the only order-status-changed emission of emitOrderUpdated goes to the
order's client's personal channel, carrying {orderId = id or underscore id,
status, timestamp}; the vendor role channel receives order-updated instead. -/
theorem claim9_status_to_user_only (g : Gen) (o : Order)
    (h : jsTruthy o.status = true) :
    (emitOrderUpdated g true o).1.filter (fun e => e.event = "order-status-changed")
      = [{ target := .channel ("user-" ++ jsShow o.userId),
           event := "order-status-changed",
           payload := .statusChanged (jsOrElse o.id o.underscoreId) (jsShow o.status)
             g.nowIso }] := by
  unfold emitOrderUpdated
  rw [if_pos rfl]
  by_cases hu : jsTruthy o.userId = true
  · rw [if_pos hu, if_pos h]
    rfl
  · rw [if_neg hu, if_pos h]
    rfl

/-- Witness for claim9_status_to_user_only at the concrete order oShip. -/
theorem claim9_witness :
    jsTruthy oShip.status = true ∧
    (emitOrderUpdated gA true oShip).1.filter (fun e => e.event = "order-status-changed")
      = [{ target := .channel ("user-" ++ jsShow oShip.userId),
           event := "order-status-changed",
           payload := .statusChanged (jsOrElse oShip.id oShip.underscoreId)
             (jsShow oShip.status) gA.nowIso }] :=
  ⟨by decide, claim9_status_to_user_only gA oShip (by decide)⟩

/-- C10: the send-message handler never consults the connection's identity
or the registry: from any two states (one in which the sender joined, one
in which it did not) the step produces the same emissions, leaves the
registry unchanged, and emits receive-message to the recipient's personal
channel plus message-sent back to the emitting connection, with no
rejection and no error. -/
theorem claim10_anonymous_send (g : Gen) (s₁ s₂ : ServerState) (conn : String)
    (p : SendMessagePayload) :
    (step g s₁ (.sendMessage conn p)).2 = (step g s₂ (.sendMessage conn p)).2 ∧
    (step g s₁ (.sendMessage conn p)).1 = s₁ ∧
    (step g s₁ (.sendMessage conn p)).2
      = [{ target := .channel ("user-" ++ p.recipientId), event := "receive-message",
           payload := .message (mkFullMessage g p) },
         { target := .direct conn, event := "message-sent",
           payload := .message (mkFullMessage g p) }] :=
  ⟨rfl, rfl, rfl⟩

end Vape
